import Mathlib

/-!
Shallow embedding of `src/filmdb.py` (a TMDb → relational-catalog
reconciliation script) and proofs about its reconciliation core.

Modelling conventions:
* Python strings are `List Char` (`Str`); `str.strip` / `str.lower` /
  slicing become `strip` / `lowerStr` / `List.take`.
* The relational store is a record of row lists (`Store`); SQL inserts
  append at the end, `SELECT` without `ORDER BY` reads rows in that order.
* Python dicts keyed by tuples are association lists with prepend-on-set
  and first-match lookup (`dset` / `dget`), which gives the dict's
  last-write-wins semantics when built by iteration.
* The external TMDb source is an oracle: the discovery stream is a
  `List Detail` (the per-candidate detail records, already concatenated
  over the year/quarter/page loops of `main`), and person lookups are a
  pure function `Nat → PersonDetail`.  Logging-only locals of `main`
  (`seen`, `inserted`, page numbers) are not modelled; all counters that
  drive nothing but log output and the skip counters named by the spec
  (`skipped_year`, `skipped_country`, `skip_country_counter`,
  `new_movies`, `new_people`, `new_credits`) are kept.
-/

set_option autoImplicit false

namespace Filmdb

/-- Python strings, modelled as lists of characters. -/
abbrev Str := List Char

/-- Convenience: a Lean string literal as a `Str`. -/
def strL (s : String) : Str := s.toList

/-- Whitespace predicate used by `str.strip` / `str.split`. -/
def isSpace (c : Char) : Bool := c.isWhitespace

/-- Python `s.strip()`: drop whitespace from both ends. -/
def strip (s : Str) : Str :=
  ((s.dropWhile isSpace).reverse.dropWhile isSpace).reverse

/-- Python `s.lower()` (per-character case fold, as in SQL `LOWER`). -/
def lowerStr (s : Str) : Str := s.map Char.toLower

/-- `filmdb.py` line 35 `trim`: `None` becomes `""`; otherwise strip and
cut to `limit` characters. -/
def trim : Option Str → Nat → Str
  | none, _ => []
  | some s, limit => (strip s).take limit

/-- Python truthiness coalescing `a or dflt` for an optional string:
`None` and `""` fall through to the default. -/
def py_or (a : Option Str) (dflt : Str) : Str :=
  match a with
  | none => dflt
  | some s => if s = [] then dflt else s

/-- `filmdb.py` line 124 `norm_title`: `(t or "").strip().lower()`.
Note: no truncation here. -/
def norm_title (t : Option Str) : Str := lowerStr (strip (t.getD []))

/-- `filmdb.py` line 128 `gender_map`: TMDb gender enum 1 → `F`,
2 → `M`, anything else (including absent) → `?`. -/
def gender_map (g : Option Int) : Str :=
  if g = some 1 then ['F']
  else if g = some 2 then ['M']
  else ['?']

/-- Python `s.split()` (split on whitespace runs, no empty tokens),
written with an accumulator for the word currently being read
(in reverse). -/
def pysplitAux : Str → Str → List Str
  | [], acc => if acc = [] then [] else [acc.reverse]
  | c :: cs, acc =>
    if isSpace c then
      if acc = [] then pysplitAux cs [] else acc.reverse :: pysplitAux cs []
    else pysplitAux cs (c :: acc)

/-- Python `s.split()`. -/
def pysplit (s : Str) : List Str := pysplitAux s []

/-- `filmdb.py` line 136 `split_name`: `(full_name or "").strip().split()`;
no tokens → `("", "")`; one token → `("", token)`; otherwise the last
token is the surname and the rest, joined by single spaces, the first
name. -/
def split_name (full_name : Option Str) : Str × Str :=
  match pysplit (strip (full_name.getD [])) with
  | [] => ([], [])
  | [p] => ([], p)
  | p :: q :: rest => (List.intercalate [' '] (List.dropLast (p :: q :: rest)),
                       ((p :: q :: rest).getLast?).getD [])

/-- Digit-string parser backing Python `int` (no sign handled here);
`none` on the empty string or any non-digit. -/
def digits? (s : Str) : Option Nat :=
  if s = [] then none
  else s.foldl (fun acc c =>
    match acc with
    | none => none
    | some n => if c.isDigit then some (n * 10 + (c.toNat - 48)) else none) (some 0)

/-- Python `int(s)` on a stripped string with an optional sign;
`none` models the `ValueError` branch. -/
def pyint? (s : Str) : Option Int :=
  match strip s with
  | [] => none
  | c :: cs =>
    if c = '-' then (digits? cs).map (fun n => -(n : Int))
    else if c = '+' then (digits? cs).map (fun n => (n : Int))
    else (digits? (c :: cs)).map (fun n => (n : Int))

/-- `filmdb.py` line 145 `year_or_none`: empty/absent date → `none`;
otherwise `int` of the part before the first `-`, with parse failure
(`except`) also giving `none`. -/
def year_or_none (date : Option Str) : Option Int :=
  match date with
  | none => none
  | some s => if s = [] then none else pyint? (s.takeWhile (fun c => c != '-'))

/-! ### Configuration constants (`filmdb.py` lines 18-22) -/

def START_YEAR : Int := 2018
def END_YEAR : Int := 2025
def ACTOR_LIMIT : Nat := 5

/-! ### Python dicts keyed by tuples

A dict built by repeated assignment is an association list where `set`
prepends and `get` takes the first (and hence most recent) match. -/

/-- Dict assignment `d[k] = v`. -/
def dset {α β : Type} (d : List (α × β)) (k : α) (v : β) : List (α × β) :=
  (k, v) :: d

/-- Dict lookup `d.get(k)` / `k in d`. -/
def dget {α β : Type} [DecidableEq α] (d : List (α × β)) (k : α) : Option β :=
  (d.find? (fun p => decide (p.1 = k))).map (fun p => p.2)

/-! ### The relational store

Rows of the four tables written by the script, plus the read-only
`countries` reference table.  SQL `INSERT` appends at the end; the
generated identity columns continue from the current maximum
(`ensure_sequences`, lines 42-57). -/

structure MovieRow where
  movieid : Nat
  title : Str
  country : Str
  year_released : Int
  runtime : Option Int
deriving DecidableEq

structure PersonRow where
  peopleid : Nat
  first_name : Option Str
  surname : Str
  born : Int
  died : Option Int
  gender : Str
deriving DecidableEq

structure AltTitleRow where
  movieid : Nat
  title : Str
deriving DecidableEq

structure CreditRow where
  movieid : Nat
  peopleid : Nat
  credited_as : Char
deriving DecidableEq

structure Store where
  movies : List MovieRow
  people : List PersonRow
  alt_titles : List AltTitleRow
  credits : List CreditRow
  /-- `countries.country_code` column, read-only to the script. -/
  countries : List Str
deriving DecidableEq

/-- Next value of `movies_movieid_seq` (current max + 1). -/
def nextMovieId (s : Store) : Nat :=
  (s.movies.foldl (fun m r => max m r.movieid) 0) + 1

/-- Next value of `people_peopleid_seq`. -/
def nextPersonId (s : Store) : Nat :=
  (s.people.foldl (fun m r => max m r.peopleid) 0) + 1

/-! ### External source records (the TMDb JSON fields that are read) -/

structure ProdCountry where
  iso_3166_1 : Option Str
deriving DecidableEq

structure AltTitleEntry where
  title : Option Str
deriving DecidableEq

structure CastMember where
  id : Nat
  name : Option Str
  original_name : Option Str
  gender : Option Int
  job : Option Str
  known_for_department : Option Str
deriving DecidableEq

/-- The per-movie detail record (`tmdb_movie_detail_with_append`),
credits and alternative titles inlined. -/
structure Detail where
  release_date : Option Str
  production_countries : List ProdCountry
  original_language : Option Str
  title : Option Str
  original_title : Option Str
  runtime : Option Int
  alternative_titles : List AltTitleEntry
  cast : List CastMember
  crew : List CastMember
deriving DecidableEq

/-- The per-person detail record (`tmdb_person_detail`). -/
structure PersonDetail where
  birthday : Option Str
  deathday : Option Str
deriving DecidableEq

/-! ### Key Index load (`fetch_existing`, lines 60-77) -/

/-- Movie dedup keys loaded at run start:
`SELECT movieid, LOWER(title), year_released, country FROM movies WHERE
year_released BETWEEN START_YEAR AND END_YEAR`, written into a dict.
The list is reversed so that `dget` (first match) realizes the dict's
last-write-wins build order. -/
def moviesKeyOf (s : Store) : List ((Str × Int × Str) × Nat) :=
  ((s.movies.filter (fun r =>
      decide (START_YEAR ≤ r.year_released ∧ r.year_released ≤ END_YEAR))).map
    (fun r => ((lowerStr r.title, r.year_released, r.country), r.movieid))).reverse

/-- Person dedup keys loaded at run start: `(fn or "", sn) ↦ peopleid`. -/
def peopleKeyOf (s : Store) : List ((Str × Str) × Nat) :=
  (s.people.map (fun r => ((r.first_name.getD [], r.surname), r.peopleid))).reverse

/-- Reference country set: `cc.strip().lower()` of every
`countries.country_code` (a Python set; only membership is used). -/
def countriesOf (s : Store) : List Str :=
  s.countries.map (fun c => lowerStr (strip c))

/-- `filmdb.py` line 60 `fetch_existing`. -/
def fetch_existing (s : Store) :
    List ((Str × Int × Str) × Nat) × List ((Str × Str) × Nat) × List Str :=
  (moviesKeyOf s, peopleKeyOf s, countriesOf s)

/-! ### Normalizer pieces used inline in `main` -/

/-- `filmdb.py` line 154 `derive_country`: lowercase ISO code of the
first production country, accepted only if nonempty and in the
reference set; otherwise `""`. -/
def derive_country (pcs : List ProdCountry) (countries : List Str) : Str :=
  match pcs with
  | [] => []
  | pc :: _ =>
    let code := lowerStr (pc.iso_3166_1.getD [])
    if code ≠ [] ∧ code ∈ countries then code else []

/-- Line 277: `not release_year or release_year < START_YEAR or
release_year > END_YEAR` (note Python falsiness: year `0` also
rejects). -/
def yearRejected (y : Option Int) : Bool :=
  match y with
  | none => true
  | some v => decide (v = 0) || decide (v < START_YEAR) || decide (v > END_YEAR)

/-- Line 288: `title = detail.get("title") or detail.get("original_title")
or ""`. -/
def chosen_title (d : Detail) : Str := py_or d.title (py_or d.original_title [])

/-- Line 289: the in-memory movie dedup key
`(norm_title(title), release_year, main_country)`. -/
def mkey (d : Detail) (countries : List Str) : Str × Int × Str :=
  (norm_title (some (chosen_title d)),
   (year_or_none d.release_date).getD 0,
   derive_country d.production_countries countries)

/-- Line 283: `(detail.get("original_language") or "unknown").lower()`. -/
def skipLang (d : Detail) : Str :=
  lowerStr (py_or d.original_language (strL "unknown"))

/-- Line 309: `[t.get("title") for t in alt_titles_resp] + [title,
detail.get("original_title")]`. -/
def altList (d : Detail) : List (Option Str) :=
  (d.alternative_titles.map (fun t => t.title)) ++
    [some (chosen_title d), d.original_title]

/-- Lines 358-364: crew entries with job `Director`; if there are none,
cast entries whose job is `Director` or whose `known_for_department`
is `Directing`. -/
def select_directors (crew cast : List CastMember) : List CastMember :=
  let directors := crew.filter (fun c => decide (c.job = some (strL "Director")))
  if directors = [] then
    cast.filter (fun c =>
      decide (c.job = some (strL "Director") ∨
              c.known_for_department = some (strL "Directing")))
  else directors

/-! ### Upsert Gateway (`insert_movie`, `upsert_people`,
`upsert_alt_titles`, `upsert_credits`) -/

structure MovieArgs where
  title : Str
  country : Str
  year_released : Int
  runtime : Option Int

structure PersonArgs where
  first_name : Str
  surname : Str
  born : Int
  died : Option Int
  gender : Str

/-- `filmdb.py` line 164 `insert_movie`: unconditional insert, title
truncated to 100, returning the generated id. -/
def insert_movie (s : Store) (m : MovieArgs) : Store × Nat :=
  let mid := nextMovieId s
  ({s with movies := s.movies ++
      [⟨mid, trim (some m.title) 100, m.country, m.year_released, m.runtime⟩]}, mid)

/-- The SQL row-match used both by the `ON CONFLICT (surname, first_name)`
target and by the fallback `SELECT`: comparison against the truncated
incoming values. -/
def personKeyMatch (p : PersonArgs) (r : PersonRow) : Bool :=
  decide (r.surname = trim (some p.surname) 30 ∧
          r.first_name = some (trim (some p.first_name) 30))

/-- The `INSERT INTO people ... ON CONFLICT (surname, first_name) DO
UPDATE SET gender = EXCLUDED.gender RETURNING peopleid` statement
(lines 182-197).  On conflict only the gender of the conflicting row is
updated and its id returned; otherwise a fresh truncated row is
appended.  `RETURNING` always yields a row, hence `some`. -/
def pgUpsertPerson (s : Store) (p : PersonArgs) : Store × Option Nat :=
  match s.people.find? (personKeyMatch p) with
  | some r =>
    ({s with people := s.people.map (fun q =>
        if q.peopleid = r.peopleid then {q with gender := p.gender} else q)},
     some r.peopleid)
  | none =>
    let pid := nextPersonId s
    ({s with people := s.people ++
        [⟨pid, some (trim (some p.first_name) 30), trim (some p.surname) 30,
          p.born, p.died, p.gender⟩]},
     some pid)

/-- Lines 198-206: `row = cur.fetchone(); if row: return row[0]` else a
defensive `SELECT peopleid ... WHERE surname=.. AND first_name=.. LIMIT 1`
by the same truncated key. -/
def person_fallback (s : Store) (p : PersonArgs) (row : Option Nat) : Option Nat :=
  match row with
  | some pid => some pid
  | none => (s.people.find? (personKeyMatch p)).map (fun r => r.peopleid)

/-- `filmdb.py` line 181 `upsert_people`. -/
def upsert_people (s : Store) (p : PersonArgs) : Store × Option Nat :=
  let r := pgUpsertPerson s p
  (r.1, person_fallback r.1 p r.2)

/-- One row of the alternate-title batch: the
`ON CONFLICT (movieid, title) DO NOTHING` semantics. -/
def altStep (movieid : Nat) (st : Store) (t : Str) : Store :=
  if st.alt_titles.any (fun a => decide (a.movieid = movieid ∧ a.title = t)) then st
  else {st with alt_titles := st.alt_titles ++ [⟨movieid, t⟩]}

/-- `filmdb.py` line 209 `upsert_alt_titles`: dedup the truthy titles
truncated to 250 (a Python set), then batch-insert with
`ON CONFLICT (movieid, title) DO NOTHING`. -/
def upsert_alt_titles (s : Store) (movieid : Nat) (titles : List (Option Str)) : Store :=
  ((((titles.filterMap id).filter (fun t => t ≠ [])).map
      (fun t => trim (some t) 250)).dedup).foldl (altStep movieid) s

/-- One row of the credit batch: the
`ON CONFLICT (movieid, peopleid, credited_as) DO NOTHING` semantics. -/
def creditStep (st : Store) (r : CreditRow) : Store :=
  if st.credits.any (fun c =>
      decide (c.movieid = r.movieid ∧ c.peopleid = r.peopleid ∧
              c.credited_as = r.credited_as)) then st
  else {st with credits := st.credits ++ [r]}

/-- `filmdb.py` line 224 `upsert_credits`: batch insert with
`ON CONFLICT (movieid, peopleid, credited_as) DO NOTHING`. -/
def upsert_credits (s : Store) (rows : List CreditRow) : Store :=
  rows.foldl creditStep s

/-! ### Reconciler state (the mutable locals of `main`, lines 250-255) -/

structure RunState where
  /-- Transaction-local view of the store (uncommitted writes included). -/
  store : Store
  movies_key : List ((Str × Int × Str) × Nat)
  people_key : List ((Str × Str) × Nat)
  countries : List Str
  new_movies : Nat
  new_people : Nat
  new_credits : Nat
  skipped_year : Nat
  skipped_country : Nat
  skip_country_counter : List (Str × Nat)
deriving DecidableEq

/-- State right after `fetch_existing` (line 250) with zeroed counters. -/
def initState (s : Store) : RunState :=
  ⟨s, moviesKeyOf s, peopleKeyOf s, countriesOf s, 0, 0, 0, 0, 0, []⟩

/-- Name chosen at lines 325/368:
`cast.get("name") or cast.get("original_name") or ""`. -/
def full_name_of (c : CastMember) : Str := py_or c.name (py_or c.original_name [])

/-- The truncated person key computed at lines 329-331 / 372-374:
`split_name`, then both parts independently `trim`-med to 30. -/
def person_key_of (c : CastMember) : Str × Str :=
  (trim (some (split_name (some (full_name_of c))).1) 30,
   trim (some (split_name (some (full_name_of c))).2) 30)

/-- One cast/crew member (lines 323-355 for role `A`, 366-398 for `D`):
skip on unusable name; otherwise reuse the cached id from `people_key`
or upsert, record the key, and emit a credit row for the batch. -/
def process_person (persons : Nat → PersonDetail) (movieid : Nat) (role : Char)
    (acc : RunState × List CreditRow) (c : CastMember) : RunState × List CreditRow :=
  if strip (full_name_of c) = [] then acc
  else if (person_key_of c).1 = [] ∧ (person_key_of c).2 = [] then acc
  else
    match dget acc.1.people_key (person_key_of c) with
    | some pid => (acc.1, acc.2 ++ [⟨movieid, pid, role⟩])
    | none =>
      let p := persons c.id
      let r := upsert_people acc.1.store
        ⟨(person_key_of c).1, (person_key_of c).2,
         (year_or_none p.birthday).getD (-1), year_or_none p.deathday,
         gender_map c.gender⟩
      let pid := (r.2).getD 0
      ({acc.1 with store := r.1,
                   people_key := dset acc.1.people_key (person_key_of c) pid,
                   new_people := acc.1.new_people + 1},
       acc.2 ++ [⟨movieid, pid, role⟩])

/-- The `Inserted` leg of the per-candidate state machine (lines
293-401): movie row, alternate-title batch, top-`ACTOR_LIMIT` cast as
`A`, selected directors as `D`, one credit batch. -/
def insert_flow (persons : Nat → PersonDetail) (st : RunState) (d : Detail) : RunState :=
  let r := insert_movie st.store
    ⟨chosen_title d, derive_country d.production_countries st.countries,
     (year_or_none d.release_date).getD 0, d.runtime⟩
  let st1 : RunState :=
    {st with store := r.1,
             movies_key := dset st.movies_key (mkey d st.countries) r.2,
             new_movies := st.new_movies + 1}
  let st2 : RunState := {st1 with store := upsert_alt_titles st1.store r.2 (altList d)}
  let acc1 := (d.cast.take ACTOR_LIMIT).foldl (process_person persons r.2 'A') (st2, [])
  let acc2 := (select_directors d.crew d.cast).foldl (process_person persons r.2 'D') acc1
  {acc2.1 with store := upsert_credits acc2.1.store acc2.2,
               new_credits := acc2.1.new_credits + acc2.2.length}

/-- One candidate of the discovery stream (lines 275-401):
`Discovered → YearChecked → CountryChecked → DedupChecked →
{Skipped | Inserted}`. -/
def process_candidate (persons : Nat → PersonDetail) (st : RunState) (d : Detail) :
    RunState :=
  if yearRejected (year_or_none d.release_date) = true then
    {st with skipped_year := st.skipped_year + 1}
  else if derive_country d.production_countries st.countries = [] then
    {st with skip_country_counter :=
               dset st.skip_country_counter (skipLang d)
                 ((dget st.skip_country_counter (skipLang d)).getD 0 + 1),
             skipped_country := st.skipped_country + 1}
  else if (dget st.movies_key (mkey d st.countries)).isSome = true then st
  else insert_flow persons st d

/-- The whole discovery stream, in order. -/
def processCands (persons : Nat → PersonDetail) (cands : List Detail)
    (st : RunState) : RunState :=
  cands.foldl (process_candidate persons) st

/-- One reconciliation run over committed store `s` (not yet committed). -/
def run (persons : Nat → PersonDetail) (cands : List Detail) (s : Store) : RunState :=
  processCands persons cands (initState s)

/-! ### Run Supervisor (lines 257-419)

The whole year-window loop sits inside one `try` on one transaction;
an unhandled fault anywhere rolls the transaction back (the committed
store is unchanged) and exits with status 1; `conn.commit()` runs once,
after the loop (line 408).  A fault is modelled by its position in the
stream: `some k` raises just before candidate `k` is processed. -/

def runBody (persons : Nat → PersonDetail) :
    List Detail → Option Nat → RunState → Except Unit RunState
  | [], _, st => .ok st
  | d :: ds, fault, st =>
    match fault with
    | some 0 => .error ()
    | some (k + 1) => runBody persons ds (some k) (process_candidate persons st d)
    | none => runBody persons ds none (process_candidate persons st d)

/-- `main`'s transaction envelope: the pair is (committed store, process
exit status). -/
def main_run (persons : Nat → PersonDetail) (cands : List Detail)
    (fault : Option Nat) (s : Store) : Store × Nat :=
  match runBody persons cands fault (initState s) with
  | .ok st => (st.store, 0)
  | .error _ => (s, 1)

/-! ## Helper lemmas: dict lookups -/

theorem dget_cons {α β : Type} [DecidableEq α] (a k : α) (v : β) (d : List (α × β)) :
    dget ((a, v) :: d) k = if a = k then some v else dget d k := by
  by_cases h : a = k <;> simp [dget, List.find?, h]

theorem dget_isSome_iff {α β : Type} [DecidableEq α] {d : List (α × β)} {k : α} :
    (dget d k).isSome = true ↔ ∃ p ∈ d, p.1 = k := by
  simp [dget, List.find?_isSome]

theorem dget_append_isSome {α β : Type} [DecidableEq α] {d₂ : List (α × β)} {k : α}
    (d₁ : List (α × β)) (h : (dget d₂ k).isSome = true) :
    (dget (d₁ ++ d₂) k).isSome = true := by
  rcases dget_isSome_iff.1 h with ⟨p, hp, hk⟩
  exact dget_isSome_iff.2 ⟨p, List.mem_append_right _ hp, hk⟩

/-- Key characterization of the reloaded movie index: a key is present
iff some stored movie row in the year window carries it. -/
theorem dget_moviesKeyOf_isSome {s : Store} {k : Str × Int × Str} :
    (dget (moviesKeyOf s) k).isSome = true ↔
      ∃ r ∈ s.movies, (START_YEAR ≤ r.year_released ∧ r.year_released ≤ END_YEAR) ∧
        (lowerStr r.title, r.year_released, r.country) = k := by
  rw [dget_isSome_iff]
  constructor
  · rintro ⟨p, hp, hk⟩
    simp only [moviesKeyOf, List.mem_reverse, List.mem_map, List.mem_filter,
      decide_eq_true_eq] at hp
    rcases hp with ⟨r, ⟨hr, hcond⟩, rfl⟩
    exact ⟨r, hr, hcond, hk⟩
  · rintro ⟨r, hr, hcond, hk⟩
    refine ⟨((lowerStr r.title, r.year_released, r.country), r.movieid), ?_, hk⟩
    simp only [moviesKeyOf, List.mem_reverse, List.mem_map, List.mem_filter,
      decide_eq_true_eq]
    exact ⟨r, ⟨hr, hcond⟩, rfl⟩

/-! ## Helper lemmas: store-operation frames

Each write operation touches exactly one table; the frame facts are
stated one projection at a time so `simp` can chase them through the
candidate pipeline. -/

theorem foldl_preserves {α β γ : Type} (f : β → α → β) (proj : β → γ)
    (h : ∀ b a, proj (f b a) = proj b) :
    ∀ (l : List α) (b : β), proj (l.foldl f b) = proj b := by
  intro l
  induction l with
  | nil => intro b; rfl
  | cons a as ih => intro b; rw [List.foldl_cons, ih, h]

@[simp] theorem insert_movie_fst_movies (s : Store) (m : MovieArgs) :
    (insert_movie s m).1.movies = s.movies ++
      [⟨nextMovieId s, trim (some m.title) 100, m.country, m.year_released, m.runtime⟩] := rfl

@[simp] theorem insert_movie_snd (s : Store) (m : MovieArgs) :
    (insert_movie s m).2 = nextMovieId s := rfl

@[simp] theorem insert_movie_fst_people (s : Store) (m : MovieArgs) :
    (insert_movie s m).1.people = s.people := rfl

@[simp] theorem insert_movie_fst_countries (s : Store) (m : MovieArgs) :
    (insert_movie s m).1.countries = s.countries := rfl

@[simp] theorem pgUpsertPerson_movies (s : Store) (p : PersonArgs) :
    (pgUpsertPerson s p).1.movies = s.movies := by
  unfold pgUpsertPerson
  cases s.people.find? (personKeyMatch p) <;> simp

@[simp] theorem pgUpsertPerson_countries (s : Store) (p : PersonArgs) :
    (pgUpsertPerson s p).1.countries = s.countries := by
  unfold pgUpsertPerson
  cases s.people.find? (personKeyMatch p) <;> simp

@[simp] theorem upsert_people_movies (s : Store) (p : PersonArgs) :
    (upsert_people s p).1.movies = s.movies := by
  simp [upsert_people]

@[simp] theorem upsert_people_countries (s : Store) (p : PersonArgs) :
    (upsert_people s p).1.countries = s.countries := by
  simp [upsert_people]

@[simp] theorem altStep_movies (movieid : Nat) (st : Store) (t : Str) :
    (altStep movieid st t).movies = st.movies := by
  unfold altStep; split <;> simp

@[simp] theorem altStep_people (movieid : Nat) (st : Store) (t : Str) :
    (altStep movieid st t).people = st.people := by
  unfold altStep; split <;> simp

@[simp] theorem altStep_countries (movieid : Nat) (st : Store) (t : Str) :
    (altStep movieid st t).countries = st.countries := by
  unfold altStep; split <;> simp

@[simp] theorem upsert_alt_titles_movies (s : Store) (movieid : Nat)
    (ts : List (Option Str)) : (upsert_alt_titles s movieid ts).movies = s.movies :=
  foldl_preserves _ Store.movies (fun b a => altStep_movies movieid b a) _ s

@[simp] theorem upsert_alt_titles_people (s : Store) (movieid : Nat)
    (ts : List (Option Str)) : (upsert_alt_titles s movieid ts).people = s.people :=
  foldl_preserves _ Store.people (fun b a => altStep_people movieid b a) _ s

@[simp] theorem upsert_alt_titles_countries (s : Store) (movieid : Nat)
    (ts : List (Option Str)) : (upsert_alt_titles s movieid ts).countries = s.countries :=
  foldl_preserves _ Store.countries (fun b a => altStep_countries movieid b a) _ s

@[simp] theorem creditStep_movies (st : Store) (r : CreditRow) :
    (creditStep st r).movies = st.movies := by
  unfold creditStep; split <;> simp

@[simp] theorem creditStep_people (st : Store) (r : CreditRow) :
    (creditStep st r).people = st.people := by
  unfold creditStep; split <;> simp

@[simp] theorem creditStep_countries (st : Store) (r : CreditRow) :
    (creditStep st r).countries = st.countries := by
  unfold creditStep; split <;> simp

@[simp] theorem upsert_credits_movies (s : Store) (rows : List CreditRow) :
    (upsert_credits s rows).movies = s.movies :=
  foldl_preserves _ Store.movies (fun b a => creditStep_movies b a) rows s

@[simp] theorem upsert_credits_people (s : Store) (rows : List CreditRow) :
    (upsert_credits s rows).people = s.people :=
  foldl_preserves _ Store.people (fun b a => creditStep_people b a) rows s

@[simp] theorem upsert_credits_countries (s : Store) (rows : List CreditRow) :
    (upsert_credits s rows).countries = s.countries :=
  foldl_preserves _ Store.countries (fun b a => creditStep_countries b a) rows s

/-! ## Helper lemmas: person-processing frames

`process_person` only ever touches `store.people`, `people_key` and
`new_people` (besides growing the credit batch); everything the movie
dedup depends on is untouched. -/

@[simp] theorem process_person_store_movies (persons : Nat → PersonDetail)
    (movieid : Nat) (role : Char) (acc : RunState × List CreditRow) (c : CastMember) :
    ((process_person persons movieid role acc c).1).store.movies
      = acc.1.store.movies := by
  unfold process_person
  split
  · rfl
  · split
    · rfl
    · split <;> simp

@[simp] theorem process_person_store_countries (persons : Nat → PersonDetail)
    (movieid : Nat) (role : Char) (acc : RunState × List CreditRow) (c : CastMember) :
    ((process_person persons movieid role acc c).1).store.countries
      = acc.1.store.countries := by
  unfold process_person
  split
  · rfl
  · split
    · rfl
    · split <;> simp

@[simp] theorem process_person_movies_key (persons : Nat → PersonDetail)
    (movieid : Nat) (role : Char) (acc : RunState × List CreditRow) (c : CastMember) :
    ((process_person persons movieid role acc c).1).movies_key
      = acc.1.movies_key := by
  unfold process_person
  split
  · rfl
  · split
    · rfl
    · split <;> simp

@[simp] theorem process_person_countries (persons : Nat → PersonDetail)
    (movieid : Nat) (role : Char) (acc : RunState × List CreditRow) (c : CastMember) :
    ((process_person persons movieid role acc c).1).countries
      = acc.1.countries := by
  unfold process_person
  split
  · rfl
  · split
    · rfl
    · split <;> simp

@[simp] theorem ppFold_store_movies (persons : Nat → PersonDetail) (movieid : Nat)
    (role : Char) (l : List CastMember) (acc : RunState × List CreditRow) :
    ((l.foldl (process_person persons movieid role) acc).1).store.movies
      = acc.1.store.movies :=
  foldl_preserves _ (fun b => b.1.store.movies)
    (fun b a => process_person_store_movies persons movieid role b a) l acc

@[simp] theorem ppFold_store_countries (persons : Nat → PersonDetail) (movieid : Nat)
    (role : Char) (l : List CastMember) (acc : RunState × List CreditRow) :
    ((l.foldl (process_person persons movieid role) acc).1).store.countries
      = acc.1.store.countries :=
  foldl_preserves _ (fun b => b.1.store.countries)
    (fun b a => process_person_store_countries persons movieid role b a) l acc

@[simp] theorem ppFold_movies_key (persons : Nat → PersonDetail) (movieid : Nat)
    (role : Char) (l : List CastMember) (acc : RunState × List CreditRow) :
    ((l.foldl (process_person persons movieid role) acc).1).movies_key
      = acc.1.movies_key :=
  foldl_preserves _ (fun b => b.1.movies_key)
    (fun b a => process_person_movies_key persons movieid role b a) l acc

@[simp] theorem ppFold_countries (persons : Nat → PersonDetail) (movieid : Nat)
    (role : Char) (l : List CastMember) (acc : RunState × List CreditRow) :
    ((l.foldl (process_person persons movieid role) acc).1).countries
      = acc.1.countries :=
  foldl_preserves _ (fun b => b.1.countries)
    (fun b a => process_person_countries persons movieid role b a) l acc

/-! ## Helper lemmas: the shape of one candidate step -/

/-- The movie row written by the `Inserted` leg. -/
def insertedRow (st : RunState) (d : Detail) : MovieRow :=
  ⟨nextMovieId st.store, trim (some (chosen_title d)) 100,
   derive_country d.production_countries st.countries,
   (year_or_none d.release_date).getD 0, d.runtime⟩

theorem insert_flow_store_movies (persons : Nat → PersonDetail) (st : RunState)
    (d : Detail) :
    (insert_flow persons st d).store.movies = st.store.movies ++ [insertedRow st d] := by
  simp [insert_flow, insertedRow]

theorem insert_flow_movies_key (persons : Nat → PersonDetail) (st : RunState)
    (d : Detail) :
    (insert_flow persons st d).movies_key
      = dset st.movies_key (mkey d st.countries) (nextMovieId st.store) := by
  simp [insert_flow]

theorem insert_flow_countries (persons : Nat → PersonDetail) (st : RunState)
    (d : Detail) : (insert_flow persons st d).countries = st.countries := by
  simp [insert_flow]

theorem insert_flow_store_countries (persons : Nat → PersonDetail) (st : RunState)
    (d : Detail) : (insert_flow persons st d).store.countries = st.store.countries := by
  simp [insert_flow]

/-! ## Helper lemmas: the four branches of `process_candidate` -/

/-- A candidate that passes the year and country checks (the only ones
that can reach the dedup decision). -/
def eligible (d : Detail) (countries : List Str) : Prop :=
  yearRejected (year_or_none d.release_date) = false ∧
  derive_country d.production_countries countries ≠ []

theorem yearRejected_false_bounds {y : Option Int} (h : yearRejected y = false) :
    ∃ v, y = some v ∧ START_YEAR ≤ v ∧ v ≤ END_YEAR := by
  cases y with
  | none => simp [yearRejected] at h
  | some v =>
    refine ⟨v, rfl, ?_, ?_⟩ <;>
      (simp [yearRejected] at h; omega)

theorem derive_country_mem {pcs : List ProdCountry} {countries : List Str}
    (h : derive_country pcs countries ≠ []) :
    derive_country pcs countries ∈ countries := by
  cases pcs with
  | nil => simp [derive_country] at h
  | cons pc rest =>
    by_cases hc : lowerStr (pc.iso_3166_1.getD []) ≠ [] ∧
        lowerStr (pc.iso_3166_1.getD []) ∈ countries
    · simp only [derive_country, if_pos hc]
      exact hc.2
    · simp [derive_country, hc] at h

theorem pc_skip_year (persons : Nat → PersonDetail) (st : RunState) (d : Detail)
    (h : yearRejected (year_or_none d.release_date) = true) :
    process_candidate persons st d = {st with skipped_year := st.skipped_year + 1} := by
  simp [process_candidate, h]

theorem pc_skip_country (persons : Nat → PersonDetail) (st : RunState) (d : Detail)
    (h1 : yearRejected (year_or_none d.release_date) = false)
    (h2 : derive_country d.production_countries st.countries = []) :
    process_candidate persons st d =
      {st with skip_country_counter :=
                 dset st.skip_country_counter (skipLang d)
                   ((dget st.skip_country_counter (skipLang d)).getD 0 + 1),
               skipped_country := st.skipped_country + 1} := by
  simp [process_candidate, h1, h2]

theorem pc_found (persons : Nat → PersonDetail) (st : RunState) (d : Detail)
    (h1 : yearRejected (year_or_none d.release_date) = false)
    (h2 : derive_country d.production_countries st.countries ≠ [])
    (h3 : (dget st.movies_key (mkey d st.countries)).isSome = true) :
    process_candidate persons st d = st := by
  simp [process_candidate, h1, h2, h3]

theorem pc_insert (persons : Nat → PersonDetail) (st : RunState) (d : Detail)
    (h1 : yearRejected (year_or_none d.release_date) = false)
    (h2 : derive_country d.production_countries st.countries ≠ [])
    (h3 : dget st.movies_key (mkey d st.countries) = none) :
    process_candidate persons st d = insert_flow persons st d := by
  simp [process_candidate, h1, h2, h3]

theorem pc_countries (persons : Nat → PersonDetail) (st : RunState) (d : Detail) :
    (process_candidate persons st d).countries = st.countries ∧
    (process_candidate persons st d).store.countries = st.store.countries := by
  unfold process_candidate
  split
  · exact ⟨rfl, rfl⟩
  · split
    · exact ⟨rfl, rfl⟩
    · split
      · exact ⟨rfl, rfl⟩
      · exact ⟨insert_flow_countries persons st d, insert_flow_store_countries persons st d⟩

theorem pc_movies_key_extend (persons : Nat → PersonDetail) (st : RunState) (d : Detail) :
    ∃ l, (process_candidate persons st d).movies_key = l ++ st.movies_key := by
  unfold process_candidate
  split
  · exact ⟨[], rfl⟩
  · split
    · exact ⟨[], rfl⟩
    · split
      · exact ⟨[], rfl⟩
      · exact ⟨[(mkey d st.countries, nextMovieId st.store)],
          by rw [insert_flow_movies_key]; rfl⟩

theorem pc_complete (persons : Nat → PersonDetail) (st : RunState) (d : Detail)
    (h1 : yearRejected (year_or_none d.release_date) = false)
    (h2 : derive_country d.production_countries st.countries ≠ []) :
    (dget (process_candidate persons st d).movies_key (mkey d st.countries)).isSome
      = true := by
  rcases hdget : dget st.movies_key (mkey d st.countries) with _ | v
  · rw [pc_insert persons st d h1 h2 hdget, insert_flow_movies_key, dset, dget_cons]
    simp
  · rw [pc_found persons st d h1 h2 (by rw [hdget]; rfl), hdget]
    rfl

/-- The in-memory movie index stays reloadable: every key it answers is
also answered by `fetch_existing` on the current (transaction-local)
store.  This is exactly what breaks for over-long titles, hence the
length hypothesis in the preservation lemma below. -/
def MKINV (st : RunState) : Prop :=
  ∀ k, (dget st.movies_key k).isSome = true →
    (dget (moviesKeyOf st.store) k).isSome = true

theorem pc_keyinv (persons : Nat → PersonDetail) (st : RunState) (d : Detail)
    (hT : (strip (chosen_title d)).length ≤ 100)
    (hinv : MKINV st) : MKINV (process_candidate persons st d) := by
  by_cases h1 : yearRejected (year_or_none d.release_date) = true
  · rw [pc_skip_year persons st d h1]; exact hinv
  · rw [Bool.not_eq_true] at h1
    by_cases h2 : derive_country d.production_countries st.countries = []
    · rw [pc_skip_country persons st d h1 h2]; exact hinv
    · rcases hdget : dget st.movies_key (mkey d st.countries) with _ | v
      · rw [pc_insert persons st d h1 h2 hdget]
        intro k hk
        rw [insert_flow_movies_key, dset, dget_cons] at hk
        rw [dget_moviesKeyOf_isSome, insert_flow_store_movies]
        by_cases hkey : mkey d st.countries = k
        · obtain ⟨v, hv, hlo, hhi⟩ := yearRejected_false_bounds h1
          refine ⟨insertedRow st d, List.mem_append_right _ (by simp), ?_, ?_⟩
          · simp [insertedRow, hv, hlo, hhi]
          · rw [← hkey]
            simp only [insertedRow, mkey, norm_title, Option.getD_some]
            rw [show trim (some (chosen_title d)) 100 = strip (chosen_title d) from
              List.take_of_length_le hT]
        · rw [if_neg hkey] at hk
          rcases dget_moviesKeyOf_isSome.1 (hinv k hk) with ⟨r, hr, hc, hkk⟩
          exact ⟨r, List.mem_append_left _ hr, hc, hkk⟩
      · rw [pc_found persons st d h1 h2 (by rw [hdget]; rfl)]
        exact hinv

/-- New movie rows written by one candidate step have an in-window year
and a country from the reference set. -/
theorem pc_movies_shape (persons : Nat → PersonDetail) (st : RunState) (d : Detail) :
    ∀ r ∈ (process_candidate persons st d).store.movies,
      r ∈ st.store.movies ∨
        (START_YEAR ≤ r.year_released ∧ r.year_released ≤ END_YEAR ∧
         r.country ∈ st.countries) := by
  by_cases h1 : yearRejected (year_or_none d.release_date) = true
  · rw [pc_skip_year persons st d h1]; exact fun r hr => Or.inl hr
  · rw [Bool.not_eq_true] at h1
    by_cases h2 : derive_country d.production_countries st.countries = []
    · rw [pc_skip_country persons st d h1 h2]; exact fun r hr => Or.inl hr
    · rcases hdget : dget st.movies_key (mkey d st.countries) with _ | v
      · rw [pc_insert persons st d h1 h2 hdget, insert_flow_store_movies]
        intro r hr
        rcases List.mem_append.1 hr with hr | hr
        · exact Or.inl hr
        · rw [List.mem_singleton] at hr
          subst hr
          obtain ⟨v, hv, hlo, hhi⟩ := yearRejected_false_bounds h1
          refine Or.inr ⟨?_, ?_, ?_⟩
          · simp [insertedRow, hv, hlo]
          · simp [insertedRow, hv, hhi]
          · exact derive_country_mem h2
      · rw [pc_found persons st d h1 h2 (by rw [hdget]; rfl)]
        exact fun r hr => Or.inl hr

/-! ## Helper lemmas: the whole stream -/

theorem processCands_nil (persons : Nat → PersonDetail) (st : RunState) :
    processCands persons [] st = st := rfl

theorem processCands_cons (persons : Nat → PersonDetail) (d : Detail) (ds : List Detail)
    (st : RunState) :
    processCands persons (d :: ds) st
      = processCands persons ds (process_candidate persons st d) := rfl

theorem processCands_countries (persons : Nat → PersonDetail) (cands : List Detail) :
    ∀ st : RunState, (processCands persons cands st).countries = st.countries ∧
      (processCands persons cands st).store.countries = st.store.countries := by
  induction cands with
  | nil => exact fun st => ⟨rfl, rfl⟩
  | cons d ds ih =>
    intro st
    have h := pc_countries persons st d
    have h2 := ih (process_candidate persons st d)
    rw [processCands_cons]
    exact ⟨h2.1.trans h.1, h2.2.trans h.2⟩

theorem processCands_movies_key_extend (persons : Nat → PersonDetail)
    (cands : List Detail) :
    ∀ st : RunState, ∃ l,
      (processCands persons cands st).movies_key = l ++ st.movies_key := by
  induction cands with
  | nil => exact fun st => ⟨[], rfl⟩
  | cons d ds ih =>
    intro st
    obtain ⟨l1, h1⟩ := pc_movies_key_extend persons st d
    obtain ⟨l2, h2⟩ := ih (process_candidate persons st d)
    exact ⟨l2 ++ l1, by rw [processCands_cons, h2, h1, List.append_assoc]⟩

/-- Completeness of the in-run index: every eligible candidate of the
stream has its key answered by the final in-memory index. -/
theorem processCands_complete (persons : Nat → PersonDetail) (cands : List Detail) :
    ∀ (st : RunState) (d : Detail), d ∈ cands → eligible d st.countries →
      (dget (processCands persons cands st).movies_key (mkey d st.countries)).isSome
        = true := by
  induction cands with
  | nil => intro st d h; exact absurd h (List.not_mem_nil d)
  | cons c cs ih =>
    intro st d hmem helig
    rw [processCands_cons]
    rcases List.mem_cons.1 hmem with rfl | hmem
    · have h := pc_complete persons st d helig.1 helig.2
      obtain ⟨l, hl⟩ :=
        processCands_movies_key_extend persons cs (process_candidate persons st d)
      rw [hl]
      exact dget_append_isSome l h
    · have hcount := (pc_countries persons st c).1
      have helig2 : eligible d (process_candidate persons st c).countries := by
        rw [hcount]; exact helig
      have h := ih (process_candidate persons st c) d hmem helig2
      rw [hcount] at h
      exact h

theorem processCands_keyinv (persons : Nat → PersonDetail) (cands : List Detail)
    (hT : ∀ d ∈ cands, (strip (chosen_title d)).length ≤ 100) :
    ∀ st : RunState, MKINV st → MKINV (processCands persons cands st) := by
  induction cands with
  | nil => exact fun st h => h
  | cons d ds ih =>
    intro st hinv
    rw [processCands_cons]
    exact ih (fun d' h' => hT d' (List.mem_cons_of_mem d h'))
      (process_candidate persons st d)
      (pc_keyinv persons st d (hT d (List.mem_cons_self d ds)) hinv)

theorem processCands_movies_shape (persons : Nat → PersonDetail) (cands : List Detail) :
    ∀ (st : RunState), ∀ r ∈ (processCands persons cands st).store.movies,
      r ∈ st.store.movies ∨
        (START_YEAR ≤ r.year_released ∧ r.year_released ≤ END_YEAR ∧
         r.country ∈ st.countries) := by
  induction cands with
  | nil => exact fun st r hr => Or.inl hr
  | cons d ds ih =>
    intro st r hr
    rw [processCands_cons] at hr
    rcases ih (process_candidate persons st d) r hr with h | h
    · exact pc_movies_shape persons st d r h
    · rw [(pc_countries persons st d).1] at h
      exact Or.inr h

/-- A second pass whose every eligible candidate is already answered by
the index writes nothing: the store, the index and the reference set
come out unchanged (only skip counters can move). -/
theorem processCands_noop (persons : Nat → PersonDetail) (cands : List Detail) :
    ∀ st : RunState,
      (∀ d ∈ cands, eligible d st.countries →
        (dget st.movies_key (mkey d st.countries)).isSome = true) →
      (processCands persons cands st).store = st.store ∧
      (processCands persons cands st).movies_key = st.movies_key ∧
      (processCands persons cands st).countries = st.countries := by
  induction cands with
  | nil => exact fun st _ => ⟨rfl, rfl, rfl⟩
  | cons d ds ih =>
    intro st hidx
    rw [processCands_cons]
    by_cases h1 : yearRejected (year_or_none d.release_date) = true
    · rw [pc_skip_year persons st d h1]
      exact ih {st with skipped_year := st.skipped_year + 1}
        (fun d' h' he => hidx d' (List.mem_cons_of_mem d h') he)
    · rw [Bool.not_eq_true] at h1
      by_cases h2 : derive_country d.production_countries st.countries = []
      · rw [pc_skip_country persons st d h1 h2]
        exact ih _ (fun d' h' he => hidx d' (List.mem_cons_of_mem d h') he)
      · rw [pc_found persons st d h1 h2
          (hidx d (List.mem_cons_self d ds) ⟨h1, h2⟩)]
        exact ih st (fun d' h' he => hidx d' (List.mem_cons_of_mem d h') he)

/-! ## Helper lemmas: uniqueness invariants -/

theorem foldl_invariant {α β : Type} (f : β → α → β) (P : β → Prop)
    (h : ∀ b a, P b → P (f b a)) :
    ∀ (l : List α) (b : β), P b → P (l.foldl f b) := by
  intro l
  induction l with
  | nil => exact fun b hb => hb
  | cons a as ih => intro b hb; rw [List.foldl_cons]; exact ih (f b a) (h b a hb)

/-- No two people rows share a stored `(first_name, surname)` pair. -/
def peoplePairwise (l : List PersonRow) : Prop :=
  List.Pairwise (fun a b => (a.first_name, a.surname) ≠ (b.first_name, b.surname)) l

/-- The conflict-target semantics preserves person-pair uniqueness: the
update path never touches name fields, and the insert path fires only
when no stored row matches the incoming truncated pair. -/
theorem pgUpsertPerson_pairwise (s : Store) (p : PersonArgs)
    (h : peoplePairwise s.people) : peoplePairwise (pgUpsertPerson s p).1.people := by
  unfold pgUpsertPerson
  rcases hf : s.people.find? (personKeyMatch p) with _ | r
  · simp only
    unfold peoplePairwise
    rw [List.pairwise_append]
    refine ⟨h, by simp, ?_⟩
    intro a ha b hb
    rw [List.mem_singleton] at hb
    subst hb
    have hnm := List.find?_eq_none.1 hf a ha
    simp only [personKeyMatch, decide_eq_true_eq] at hnm
    intro hEq
    rw [Prod.mk.injEq] at hEq
    exact hnm ⟨hEq.2, hEq.1⟩
  · simp only
    unfold peoplePairwise
    exact List.Pairwise.map _
      (fun a b hab => by
        by_cases ha : a.peopleid = r.peopleid <;>
          by_cases hb : b.peopleid = r.peopleid <;>
            simpa [ha, hb] using hab) h

theorem upsert_people_fst (s : Store) (p : PersonArgs) :
    (upsert_people s p).1 = (pgUpsertPerson s p).1 := rfl

theorem process_person_people_pairwise (persons : Nat → PersonDetail) (movieid : Nat)
    (role : Char) (acc : RunState × List CreditRow) (c : CastMember)
    (h : peoplePairwise acc.1.store.people) :
    peoplePairwise ((process_person persons movieid role acc c).1).store.people := by
  unfold process_person
  split
  · exact h
  · split
    · exact h
    · split
      · exact h
      · simp only [upsert_people_fst]
        exact pgUpsertPerson_pairwise acc.1.store _ h

theorem pc_people_pairwise (persons : Nat → PersonDetail) (st : RunState) (d : Detail)
    (h : peoplePairwise st.store.people) :
    peoplePairwise (process_candidate persons st d).store.people := by
  unfold process_candidate
  split
  · exact h
  · split
    · exact h
    · split
      · exact h
      · unfold insert_flow
        simp only [upsert_credits_people]
        refine foldl_invariant _ (fun acc => peoplePairwise acc.1.store.people)
          (fun b a hb => process_person_people_pairwise persons _ 'D' b a hb) _ _ ?_
        refine foldl_invariant _ (fun acc => peoplePairwise acc.1.store.people)
          (fun b a hb => process_person_people_pairwise persons _ 'A' b a hb) _ _ ?_
        simpa using h

theorem processCands_people_pairwise (persons : Nat → PersonDetail)
    (cands : List Detail) :
    ∀ st : RunState, peoplePairwise st.store.people →
      peoplePairwise (processCands persons cands st).store.people := by
  induction cands with
  | nil => exact fun st h => h
  | cons d ds ih =>
    intro st h
    rw [processCands_cons]
    exact ih _ (pc_people_pairwise persons st d h)

/-- The stored normalized movie triple: lowercased stored title, release
year, country — what `fetch_existing` would key the row by (modulo the
year-window filter). -/
def rkey (r : MovieRow) : Str × Int × Str := (lowerStr r.title, r.year_released, r.country)

/-- With a within-bound title, the stored row's reload key coincides
with the in-memory key under which it was registered. -/
theorem insertedRow_rkey (st : RunState) (d : Detail)
    (hT : (strip (chosen_title d)).length ≤ 100) :
    rkey (insertedRow st d) = mkey d st.countries := by
  simp only [rkey, insertedRow, mkey, norm_title, Option.getD_some]
  rw [show trim (some (chosen_title d)) 100 = strip (chosen_title d) from
    List.take_of_length_le hT]

/-- Movie-triple uniqueness invariant: no two rows of the (transaction
local) store share a normalized triple, and every row's triple is
answered by the in-memory index. -/
def MOVINV (st : RunState) : Prop :=
  List.Pairwise (fun a b => rkey a ≠ rkey b) st.store.movies ∧
  ∀ r ∈ st.store.movies, (dget st.movies_key (rkey r)).isSome = true

theorem pc_movinv (persons : Nat → PersonDetail) (st : RunState) (d : Detail)
    (hT : (strip (chosen_title d)).length ≤ 100)
    (hinv : MOVINV st) : MOVINV (process_candidate persons st d) := by
  by_cases h1 : yearRejected (year_or_none d.release_date) = true
  · rw [pc_skip_year persons st d h1]; exact hinv
  · rw [Bool.not_eq_true] at h1
    by_cases h2 : derive_country d.production_countries st.countries = []
    · rw [pc_skip_country persons st d h1 h2]; exact hinv
    · rcases hdget : dget st.movies_key (mkey d st.countries) with _ | v
      · rw [pc_insert persons st d h1 h2 hdget]
        constructor
        · rw [insert_flow_store_movies, List.pairwise_append]
          refine ⟨hinv.1, by simp, ?_⟩
          intro a ha b hb
          rw [List.mem_singleton] at hb
          subst hb
          rw [insertedRow_rkey st d hT]
          intro hEq
          have := hinv.2 a ha
          rw [hEq, hdget] at this
          exact Bool.false_ne_true this
        · intro r hr
          rw [insert_flow_movies_key, dset, dget_cons]
          rw [insert_flow_store_movies] at hr
          rcases List.mem_append.1 hr with hr | hr
          · split
            · rfl
            · exact hinv.2 r hr
          · rw [List.mem_singleton] at hr
            subst hr
            rw [insertedRow_rkey st d hT, if_pos rfl]
            rfl
      · rw [pc_found persons st d h1 h2 (by rw [hdget]; rfl)]
        exact hinv

theorem processCands_movinv (persons : Nat → PersonDetail) (cands : List Detail)
    (hT : ∀ d ∈ cands, (strip (chosen_title d)).length ≤ 100) :
    ∀ st : RunState, MOVINV st → MOVINV (processCands persons cands st) := by
  induction cands with
  | nil => exact fun st h => h
  | cons d ds ih =>
    intro st hinv
    rw [processCands_cons]
    exact ih (fun d' h' => hT d' (List.mem_cons_of_mem d h')) _
      (pc_movinv persons st d (hT d (List.mem_cons_self d ds)) hinv)

/-! ## Helper lemmas: the transaction envelope -/

theorem runBody_none (persons : Nat → PersonDetail) :
    ∀ (cands : List Detail) (st : RunState),
      runBody persons cands none st = .ok (processCands persons cands st) := by
  intro cands
  induction cands with
  | nil => intro st; rfl
  | cons d ds ih => intro st; rw [runBody, processCands_cons]; exact ih _

theorem runBody_fault (persons : Nat → PersonDetail) :
    ∀ (cands : List Detail) (k : Nat) (st : RunState), k < cands.length →
      runBody persons cands (some k) st = .error () := by
  intro cands
  induction cands with
  | nil => intro k st h; exact absurd h (by simp)
  | cons d ds ih =>
    intro k st h
    cases k with
    | zero => rfl
    | succ k =>
      rw [runBody]
      exact ih k _ (by simpa using Nat.lt_of_succ_lt_succ h)

theorem runBody_late (persons : Nat → PersonDetail) :
    ∀ (cands : List Detail) (k : Nat) (st : RunState), cands.length ≤ k →
      runBody persons cands (some k) st = .ok (processCands persons cands st) := by
  intro cands
  induction cands with
  | nil => intro k st _; rfl
  | cons d ds ih =>
    intro k st h
    cases k with
    | zero => exact absurd h (by simp)
    | succ k =>
      rw [runBody, processCands_cons]
      exact ih k _ (by simpa using Nat.le_of_succ_le_succ h)

/-! ## Helper lemmas: a second run over the same stream -/

/-- Master idempotence lemma: as long as every candidate's stripped
title fits the 100-character bound (so storing it truncates nothing),
running the reconciliation a second time over the same stream leaves
the store exactly as the first run left it. -/
theorem run_twice_store (persons : Nat → PersonDetail) (cands : List Detail) (s : Store)
    (hT : ∀ d ∈ cands, (strip (chosen_title d)).length ≤ 100) :
    (run persons cands ((run persons cands s).store)).store
      = (run persons cands s).store := by
  have hc1 : (run persons cands s).store.countries = s.countries :=
    (processCands_countries persons cands (initState s)).2
  have hcof : countriesOf (run persons cands s).store = countriesOf s := by
    unfold countriesOf
    rw [hc1]
  have hinv0 : MKINV (initState s) := fun k h => h
  have hinv1 : MKINV (run persons cands s) :=
    processCands_keyinv persons cands hT (initState s) hinv0
  have hidx : ∀ d ∈ cands,
      eligible d (initState (run persons cands s).store).countries →
      (dget (initState (run persons cands s).store).movies_key
        (mkey d (initState (run persons cands s).store).countries)).isSome = true := by
    intro d hd he
    have he' : eligible d (countriesOf s) := by
      have : (initState (run persons cands s).store).countries
          = countriesOf (run persons cands s).store := rfl
      rw [this, hcof] at he
      exact he
    have h1 := processCands_complete persons cands (initState s) d hd he'
    have h2 := hinv1 _ h1
    have h3 : (initState (run persons cands s).store).movies_key
        = moviesKeyOf (run persons cands s).store := rfl
    have h4 : (initState (run persons cands s).store).countries
        = countriesOf (run persons cands s).store := rfl
    rw [h3, h4, hcof]
    exact h2
  exact (processCands_noop persons cands (initState (run persons cands s).store) hidx).1

/-! ## Concrete fixtures shared by counterexamples and witnesses -/

/-- A person-detail oracle with no birth/death data. -/
def persons0 : Nat → PersonDetail := fun _ => ⟨none, none⟩

/-- Catalog-empty store whose reference country table holds `US`. -/
def S0c : Store := ⟨[], [], [], [], [strL "US"]⟩

/-- A candidate whose title is 101 characters long (one over the bound),
otherwise perfectly acceptable: release 2020, production country `US`. -/
def dLong : Detail :=
  { release_date := some (strL "2020-05-01")
    production_countries := [⟨some (strL "US")⟩]
    original_language := some (strL "en")
    title := some (List.replicate 101 'a')
    original_title := none
    runtime := some 95
    alternative_titles := []
    cast := []
    crew := [] }

/-- A second over-long title, distinct from `dLong`'s but sharing its
first 100 characters. -/
def dLong2 : Detail := { dLong with title := some (List.replicate 100 'a' ++ [ 'b' ]) }

/-- The same candidate with a short (in-bound) title. -/
def dShort : Detail := { dLong with title := some (strL "Ok Film") }

/-- A candidate carrying one crew member with job `Director` and one
cast member with `known_for_department = Directing`. -/
def dCast : Detail :=
  { dLong with
    title := some (strL "Film")
    cast := [{ id := 7, name := some (strL "Bob Cast"), original_name := none,
               gender := some 2, job := none,
               known_for_department := some (strL "Directing") }]
    crew := [{ id := 8, name := some (strL "Alice Crew"), original_name := none,
               gender := some 1, job := some (strL "Director"),
               known_for_department := some (strL "Directing") }] }

/-- A candidate that fails country resolution (empty production-country
list). -/
def dNoCountry : Detail := { dShort with production_countries := [] }

/-- A candidate with an out-of-window release year. -/
def dOldYear : Detail := { dShort with release_date := some (strL "1999-05-01") }

/-! ## The claims -/

/-- Claim C1 (code bug): the claim says the dedup key is computed with
the same truncation the stored value uses, so a later run re-loading
keys from storage finds the row and inserts no duplicate.  In the code
`norm_title` does not truncate while `insert_movie` stores
`trim(title, 100)`, so for a 101-character title the key recomputed
from the source differs from the key reloaded from storage
(`LOWER(title)` of the truncated value), and a second run inserts a
second movie row: evaluating the code at the failing input, the first
run stores one row and the second run over identical source data makes
it two. -/
theorem claim_C1_bug :
    norm_title (some (List.replicate 101 'a'))
        ≠ lowerStr (trim (some (List.replicate 101 'a')) 100) ∧
    (run persons0 [dLong] S0c).store.movies.length = 1 ∧
    (run persons0 [dLong] ((run persons0 [dLong] S0c).store)).store.movies.length = 2 := by
  refine ⟨by decide, by decide, by decide⟩

/-- Claim C2, counterexample: with a single 101-character-titled
candidate and an empty initial catalog, running the reconciliation
twice does not leave the same movie row count as running it once. -/
theorem claim_C2_cex :
    (run persons0 [dLong] ((run persons0 [dLong] S0c).store)).store.movies.length
      ≠ (run persons0 [dLong] S0c).store.movies.length := by
  decide

/-- Claim C2 (amended): provided every candidate's stripped title is
within the 100-character bound (so the store's truncation is the
identity), running the reconciliation twice against the same external
data from an empty initial store leaves exactly the row counts of a
single run for movies, people, alternate titles and credits. -/
theorem claim_C2 (persons : Nat → PersonDetail) (cands : List Detail) (cs : List Str)
    (hT : ∀ d ∈ cands, (strip (chosen_title d)).length ≤ 100) :
    (run persons cands ((run persons cands (⟨[], [], [], [], cs⟩ : Store)).store)).store.movies.length
        = (run persons cands (⟨[], [], [], [], cs⟩ : Store)).store.movies.length ∧
    (run persons cands ((run persons cands (⟨[], [], [], [], cs⟩ : Store)).store)).store.people.length
        = (run persons cands (⟨[], [], [], [], cs⟩ : Store)).store.people.length ∧
    (run persons cands ((run persons cands (⟨[], [], [], [], cs⟩ : Store)).store)).store.alt_titles.length
        = (run persons cands (⟨[], [], [], [], cs⟩ : Store)).store.alt_titles.length ∧
    (run persons cands ((run persons cands (⟨[], [], [], [], cs⟩ : Store)).store)).store.credits.length
        = (run persons cands (⟨[], [], [], [], cs⟩ : Store)).store.credits.length := by
  rw [run_twice_store persons cands (⟨[], [], [], [], cs⟩ : Store) hT]
  exact ⟨rfl, rfl, rfl, rfl⟩

/-- Claim C2, witness: the amended idempotence at a concrete stream. -/
theorem claim_C2_witness :
    (run persons0 [dShort] ((run persons0 [dShort] (⟨[], [], [], [], [strL "US"]⟩ : Store)).store)).store.movies.length
        = (run persons0 [dShort] (⟨[], [], [], [], [strL "US"]⟩ : Store)).store.movies.length ∧
    (run persons0 [dShort] ((run persons0 [dShort] (⟨[], [], [], [], [strL "US"]⟩ : Store)).store)).store.people.length
        = (run persons0 [dShort] (⟨[], [], [], [], [strL "US"]⟩ : Store)).store.people.length ∧
    (run persons0 [dShort] ((run persons0 [dShort] (⟨[], [], [], [], [strL "US"]⟩ : Store)).store)).store.alt_titles.length
        = (run persons0 [dShort] (⟨[], [], [], [], [strL "US"]⟩ : Store)).store.alt_titles.length ∧
    (run persons0 [dShort] ((run persons0 [dShort] (⟨[], [], [], [], [strL "US"]⟩ : Store)).store)).store.credits.length
        = (run persons0 [dShort] (⟨[], [], [], [], [strL "US"]⟩ : Store)).store.credits.length :=
  claim_C2 persons0 [dShort] [strL "US"] (by decide)

/-- Claim C3, counterexample: two candidates with distinct 101/102
character titles sharing their first 100 characters are both inserted
by a single run from an empty catalog, after which two distinct movie
rows (ids 1 and 2) share the same (normalized-lowercase stored title,
year, country) triple. -/
theorem claim_C3_cex :
    ((run persons0 [dLong, dLong2] S0c).store.movies.map rkey)
        = [(List.replicate 100 'a', 2020, strL "us"),
           (List.replicate 100 'a', 2020, strL "us")] ∧
    ((run persons0 [dLong, dLong2] S0c).store.movies.map (fun r => r.movieid))
        = [1, 2] := by
  refine ⟨by decide, by decide⟩

/-- Claim C3 (amended): after a run from an empty initial catalog, no
two people rows share a stored (first name, surname) pair (the stored
names are exactly the truncated forms, so this is the post-truncation
pair) — unconditionally, for any stream — and, provided every
candidate's stripped title is within the 100-character bound, no two
movie rows share the same (normalized-lowercase title, year, country)
triple.  Both are maintained by the application's Key Index and upsert
conflict targets, not by any schema constraint on the movie triple. -/
theorem claim_C3 (persons : Nat → PersonDetail) (cands : List Detail) (cs : List Str) :
    List.Pairwise (fun a b => (a.first_name, a.surname) ≠ (b.first_name, b.surname))
        (run persons cands (⟨[], [], [], [], cs⟩ : Store)).store.people ∧
    ((∀ d ∈ cands, (strip (chosen_title d)).length ≤ 100) →
      List.Pairwise (fun a b => rkey a ≠ rkey b)
          (run persons cands (⟨[], [], [], [], cs⟩ : Store)).store.movies) := by
  constructor
  · exact processCands_people_pairwise persons cands
      (initState (⟨[], [], [], [], cs⟩ : Store)) List.Pairwise.nil
  · intro hT
    exact (processCands_movinv persons cands hT (initState (⟨[], [], [], [], cs⟩ : Store))
      ⟨List.Pairwise.nil, fun r hr => absurd hr (List.not_mem_nil r)⟩).1

/-- Claim C3, witness: uniqueness at a concrete stream containing a
repeated candidate and several people, the title-bound hypothesis of
the movie half discharged concretely. -/
theorem claim_C3_witness :
    List.Pairwise (fun a b => (a.first_name, a.surname) ≠ (b.first_name, b.surname))
        (run persons0 [dShort, dCast, dShort] (⟨[], [], [], [], [strL "US"]⟩ : Store)).store.people ∧
    List.Pairwise (fun a b => rkey a ≠ rkey b)
        (run persons0 [dShort, dCast, dShort] (⟨[], [], [], [], [strL "US"]⟩ : Store)).store.movies :=
  ⟨(claim_C3 persons0 [dShort, dCast, dShort] [strL "US"]).1,
   (claim_C3 persons0 [dShort, dCast, dShort] [strL "US"]).2 (by decide)⟩

/-- Claim C4, counterexample: a movie whose credits hold one crew
member with job `Director` (Alice Crew, stored as person 2) and one
cast member with `known_for_department = Directing` (Bob Cast, stored
as person 1), with no other crew directors.  The run records exactly
one `A` credit for Bob and one `D` credit for Alice; Bob gets no `D`
credit, refuting the claim that both are recorded as `D`. -/
theorem claim_C4_cex :
    (run persons0 [dCast] S0c).store.credits = [⟨1, 1, 'A'⟩, ⟨1, 2, 'D'⟩] ∧
    ((run persons0 [dCast] S0c).store.people.map (fun r => (r.peopleid, r.surname)))
        = [(1, strL "Cast"), (2, strL "Crew")] ∧
    ¬ ∃ cr ∈ (run persons0 [dCast] S0c).store.credits,
        cr.peopleid = 1 ∧ cr.credited_as = 'D' := by
  refine ⟨by decide, by decide, by decide⟩

/-- Claim C4 (amended): when at least one crew member has job
`Director`, exactly the crew directors are selected for `D` credits —
a cast member whose `known_for_department` is `Directing` is not among
them unless they also appear in crew; the cast fallback (job `Director`
or department `Directing`) applies only when no crew-level director
exists. -/
theorem claim_C4 (crew cast : List CastMember) :
    (crew.filter (fun c => decide (c.job = some (strL "Director"))) ≠ [] →
      select_directors crew cast
          = crew.filter (fun c => decide (c.job = some (strL "Director"))) ∧
      ∀ c ∈ select_directors crew cast,
        c ∈ crew ∧ c.job = some (strL "Director")) ∧
    (crew.filter (fun c => decide (c.job = some (strL "Director"))) = [] →
      select_directors crew cast
          = cast.filter (fun c =>
              decide (c.job = some (strL "Director") ∨
                      c.known_for_department = some (strL "Directing")))) := by
  constructor
  · intro h
    have hsel : select_directors crew cast
        = crew.filter (fun c => decide (c.job = some (strL "Director"))) := by
      unfold select_directors
      rw [if_neg h]
    refine ⟨hsel, ?_⟩
    intro c hc
    rw [hsel] at hc
    have hm := List.mem_filter.1 hc
    exact ⟨hm.1, by simpa using hm.2⟩
  · intro h
    unfold select_directors
    rw [h, if_pos rfl]

/-- Claim C4, witness: director selection at the counterexample's
credits — the crew-director hypothesis is discharged concretely. -/
theorem claim_C4_witness :
    select_directors dCast.crew dCast.cast
        = dCast.crew.filter (fun c => decide (c.job = some (strL "Director"))) ∧
    ∀ c ∈ select_directors dCast.crew dCast.cast,
      c ∈ dCast.crew ∧ c.job = some (strL "Director") :=
  (claim_C4 dCast.crew dCast.cast).1 (by decide)

/-- Claim C5: an unhandled fault at any point of the stream — after any
number of processed candidates but before the commit — leaves the
committed store with zero net new rows (full rollback to the initial
store) and exits with status 1; without a fault anywhere in the
configured window the single commit publishes the run's store and the
process exits 0. -/
theorem claim_C5 (persons : Nat → PersonDetail) (cands : List Detail) (s : Store) :
    (∀ k, k < cands.length → main_run persons cands (some k) s = (s, 1)) ∧
    main_run persons cands none s = ((run persons cands s).store, 0) ∧
    (∀ k, cands.length ≤ k →
      main_run persons cands (some k) s = ((run persons cands s).store, 0)) := by
  refine ⟨?_, ?_, ?_⟩
  · intro k hk
    unfold main_run
    rw [runBody_fault persons cands k (initState s) hk]
  · unfold main_run
    rw [runBody_none persons cands (initState s)]
    rfl
  · intro k hk
    unfold main_run
    rw [runBody_late persons cands k (initState s) hk]
    rfl

/-- Claim C5, witness: a fault before the only candidate rolls the run
back to the untouched store with exit status 1; the fault-free run
commits with exit status 0. -/
theorem claim_C5_witness :
    main_run persons0 [dShort] (some 0) S0c = (S0c, 1) ∧
    main_run persons0 [dShort] none S0c = ((run persons0 [dShort] S0c).store, 0) :=
  ⟨(claim_C5 persons0 [dShort] S0c).1 0 (by decide),
   (claim_C5 persons0 [dShort] S0c).2.1⟩

/-- Claim C6: the person upsert, keyed on the truncated
(surname, first name) pair, on conflict updates only the gender — every
row's id, first name, surname, birth year and death year are unchanged —
and returns the existing row's identity; and when the conflict path
yields no row, the fallback is a direct lookup by the same truncated
key (it returns the first matching row's identity, and that row matches
the truncated key). -/
theorem claim_C6 (s : Store) (p : PersonArgs) (r : PersonRow)
    (h : s.people.find? (personKeyMatch p) = some r) :
    (upsert_people s p).2 = some r.peopleid ∧
    ((pgUpsertPerson s p).1.people.map
        (fun q => (q.peopleid, q.first_name, q.surname, q.born, q.died)))
      = (s.people.map (fun q => (q.peopleid, q.first_name, q.surname, q.born, q.died))) ∧
    (∀ (s2 : Store) (p2 : PersonArgs) (q : PersonRow),
        s2.people.find? (personKeyMatch p2) = some q →
        person_fallback s2 p2 none = some q.peopleid ∧ personKeyMatch p2 q = true) := by
  refine ⟨?_, ?_, ?_⟩
  · simp [upsert_people, pgUpsertPerson, person_fallback, h]
  · unfold pgUpsertPerson
    rw [h]
    simp only [List.map_map]
    apply List.map_congr_left
    intro q hq
    by_cases hid : q.peopleid = r.peopleid <;> simp [hid]
  · intro s2 p2 q hq
    exact ⟨by simp [person_fallback, hq], List.find?_some hq⟩

/-- A stored person row used by the C6 witness. -/
def annRow : PersonRow := ⟨1, some (strL "Ann"), strL "Lee", 1970, none, strL "F"⟩

/-- A store holding only `annRow`. -/
def storeP : Store := ⟨[], [annRow], [], [], []⟩

/-- Incoming person data conflicting with `annRow` on the
(surname, first name) key but with different gender/born/died. -/
def pAnn : PersonArgs := ⟨strL "Ann", strL "Lee", -1, some 2030, strL "?"⟩

/-- Claim C6, witness: the conflict hypothesis discharged on a concrete
store. -/
theorem claim_C6_witness :
    (upsert_people storeP pAnn).2 = some annRow.peopleid ∧
    ((pgUpsertPerson storeP pAnn).1.people.map
        (fun q => (q.peopleid, q.first_name, q.surname, q.born, q.died)))
      = (storeP.people.map (fun q => (q.peopleid, q.first_name, q.surname, q.born, q.died))) ∧
    (∀ (s2 : Store) (p2 : PersonArgs) (q : PersonRow),
        s2.people.find? (personKeyMatch p2) = some q →
        person_fallback s2 p2 none = some q.peopleid ∧ personKeyMatch p2 q = true) :=
  claim_C6 storeP pAnn annRow (by decide)

/-- Claim C7: every movie row a run adds has a country code that is a
member of the reference set loaded at run start — each member being the
lowercased (stripped) form of a stored reference code — and a candidate
whose country does not resolve is rejected with its original-language
code tallied only in the in-memory diagnostic counter, the store left
untouched. -/
theorem claim_C7 (persons : Nat → PersonDetail) (cands : List Detail) (s : Store) :
    (∀ r ∈ (run persons cands s).store.movies,
        r ∈ s.movies ∨
          (r.country ∈ countriesOf s ∧
           ∃ src ∈ s.countries, r.country = lowerStr (strip src))) ∧
    (∀ (st : RunState) (d : Detail),
        yearRejected (year_or_none d.release_date) = false →
        derive_country d.production_countries st.countries = [] →
        process_candidate persons st d
          = {st with skip_country_counter :=
                       dset st.skip_country_counter (skipLang d)
                         ((dget st.skip_country_counter (skipLang d)).getD 0 + 1),
                     skipped_country := st.skipped_country + 1}) := by
  constructor
  · intro r hr
    rcases processCands_movies_shape persons cands (initState s) r hr with h | h
    · exact Or.inl h
    · have hmem : r.country ∈ countriesOf s := h.2.2
      have hmem2 : r.country ∈ s.countries.map (fun c => lowerStr (strip c)) := hmem
      rcases List.mem_map.1 hmem2 with ⟨src, hsrc, heq⟩
      exact Or.inr ⟨hmem, src, hsrc, heq.symm⟩
  · exact fun st d ha hb => pc_skip_country persons st d ha hb

/-- The movie row that `dShort` inserts into the empty catalog. -/
def row7 : MovieRow := ⟨1, strL "Ok Film", strL "us", 2020, some 95⟩

/-- Claim C7, witness: the inserted row's country really is a lowercase
member of the loaded reference set, and a concrete country rejection
only bumps the counters. -/
theorem claim_C7_witness :
    (row7 ∈ S0c.movies ∨
      (row7.country ∈ countriesOf S0c ∧
       ∃ src ∈ S0c.countries, row7.country = lowerStr (strip src))) ∧
    process_candidate persons0 (initState S0c) dNoCountry
      = {initState S0c with
           skip_country_counter :=
             dset (initState S0c).skip_country_counter (skipLang dNoCountry)
               ((dget (initState S0c).skip_country_counter
                   (skipLang dNoCountry)).getD 0 + 1),
           skipped_country := (initState S0c).skipped_country + 1} :=
  ⟨(claim_C7 persons0 [dShort] S0c).1 row7 (by decide),
   (claim_C7 persons0 [dShort] S0c).2 (initState S0c) dNoCountry (by decide) (by decide)⟩

/-- Claim C8: no movie row a run adds has a release year outside the
configured [START_YEAR, END_YEAR] window, and a candidate whose
resolved year is absent or out of window is skipped with only the
year-skip counter incremented, before any write. -/
theorem claim_C8 (persons : Nat → PersonDetail) (cands : List Detail) (s : Store) :
    (∀ r ∈ (run persons cands s).store.movies,
        r ∈ s.movies ∨
          (START_YEAR ≤ r.year_released ∧ r.year_released ≤ END_YEAR)) ∧
    (∀ (st : RunState) (d : Detail),
        yearRejected (year_or_none d.release_date) = true →
        process_candidate persons st d
          = {st with skipped_year := st.skipped_year + 1}) := by
  constructor
  · intro r hr
    rcases processCands_movies_shape persons cands (initState s) r hr with h | h
    · exact Or.inl h
    · exact Or.inr ⟨h.1, h.2.1⟩
  · exact fun st d ha => pc_skip_year persons st d ha

/-- Claim C8, witness: the inserted row's year is in-window, and a 1999
release is skipped with exactly a counter bump. -/
theorem claim_C8_witness :
    (row7 ∈ S0c.movies ∨
      (START_YEAR ≤ row7.year_released ∧ row7.year_released ≤ END_YEAR)) ∧
    process_candidate persons0 (initState S0c) dOldYear
      = {initState S0c with skipped_year := (initState S0c).skipped_year + 1} :=
  ⟨(claim_C8 persons0 [dShort] S0c).1 row7 (by decide),
   (claim_C8 persons0 [dShort] S0c).2 (initState S0c) dOldYear (by decide)⟩

/-- Claim C9: a whitespace-only display name splits to the empty pair;
a single-token name gives an empty first name with the token as
surname; a multi-token name gives the last token as surname and the
rest joined by single spaces as first name; the per-person key then
truncates both parts independently to 30 characters (`person_key_of`),
and a candidate person both of whose truncated parts are empty is
skipped without any write. -/
theorem claim_C9 :
    (∀ s : Str, s.all isSpace = true → split_name (some s) = ([], [])) ∧
    (∀ s t : Str, pysplit (strip s) = [t] → split_name (some s) = ([], t)) ∧
    (∀ (s : Str) (p q : Str) (rest : List Str),
        pysplit (strip s) = p :: q :: rest →
        split_name (some s)
          = (List.intercalate [' '] (List.dropLast (p :: q :: rest)),
             ((p :: q :: rest).getLast?).getD [])) ∧
    (∀ (persons : Nat → PersonDetail) (movieid : Nat) (role : Char)
        (acc : RunState × List CreditRow) (c : CastMember),
        (person_key_of c).1 = [] → (person_key_of c).2 = [] →
        process_person persons movieid role acc c = acc) := by
  refine ⟨?_, ?_, ?_, ?_⟩
  · intro s hs
    have h1 : s.dropWhile isSpace = [] :=
      List.dropWhile_eq_nil_iff.2 (fun x hx => List.all_eq_true.1 hs x hx)
    have h2 : strip s = [] := by
      unfold strip
      rw [h1]
      rfl
    simp only [split_name, Option.getD_some, h2]
    rfl
  · intro s t h
    simp only [split_name, Option.getD_some, h]
  · intro s p q rest h
    simp only [split_name, Option.getD_some, h]
  · intro persons movieid role acc c h1 h2
    unfold process_person
    split
    · rfl
    · rw [if_pos ⟨h1, h2⟩]

/-- A cast member whose display name is whitespace-only. -/
def cBlank : CastMember := ⟨9, some (strL "  "), none, none, none, none⟩

/-- Claim C9, witness: the spec's `Madonna` example, a multi-token
name, a whitespace-only name and the empty-key skip, all concrete. -/
theorem claim_C9_witness :
    split_name (some (strL "   ")) = ([], []) ∧
    split_name (some (strL "Madonna")) = ([], strL "Madonna") ∧
    split_name (some (strL "Bob van Cast"))
      = (List.intercalate [' '] (List.dropLast [strL "Bob", strL "van", strL "Cast"]),
         (([strL "Bob", strL "van", strL "Cast"]).getLast?).getD []) ∧
    process_person persons0 1 'A' (initState S0c, []) cBlank = (initState S0c, []) :=
  ⟨claim_C9.1 (strL "   ") (by decide),
   claim_C9.2.1 (strL "Madonna") (strL "Madonna") (by decide),
   claim_C9.2.2.1 (strL "Bob van Cast") (strL "Bob") (strL "van") [strL "Cast"] (by decide),
   claim_C9.2.2.2 persons0 1 'A' (initState S0c, []) cBlank (by decide) (by decide)⟩

/-- Claim C10: a candidate person whose truncated (first name, surname)
key is already answered by the in-memory person index triggers no store
write at all — in particular no gender refresh — and only emits a
credit row referencing the cached identity. -/
theorem claim_C10 (persons : Nat → PersonDetail) (movieid : Nat) (role : Char)
    (acc : RunState × List CreditRow) (c : CastMember) (pid : Nat)
    (h1 : ¬ strip (full_name_of c) = [])
    (h2 : ¬ ((person_key_of c).1 = [] ∧ (person_key_of c).2 = []))
    (h3 : dget acc.1.people_key (person_key_of c) = some pid) :
    process_person persons movieid role acc c
      = (acc.1, acc.2 ++ [⟨movieid, pid, role⟩]) := by
  unfold process_person
  rw [if_neg h1, if_neg h2, h3]

/-- The cast member of `dCast`, reused concretely. -/
def cBob : CastMember := ⟨7, some (strL "Bob Cast"), none, some 2, none, some (strL "Directing")⟩

/-- A state whose person index already knows Bob Cast under id 42. -/
def acc10 : RunState × List CreditRow :=
  ({initState S0c with people_key := [((strL "Bob", strL "Cast"), 42)]},
   ([] : List CreditRow))

/-- Claim C10, witness: the cached person produces only a credit row
with the cached id, with the state untouched. -/
theorem claim_C10_witness :
    process_person persons0 5 'A' acc10 cBob
      = (acc10.1, acc10.2 ++ [⟨5, 42, 'A'⟩]) :=
  claim_C10 persons0 5 'A' acc10 cBob 42 (by decide) (by decide) (by decide)

end Filmdb

